import Mathlib

/-!
Verification of the concurrency teaching repository's dispatcher core.

The embedding models:
* `src/concurrency/getflags/flags2_sequential.py` and
  `src/concurrency/getflags/flags2_threadpool.py` — the download dispatchers
  that classify per-job outcomes and tally them in a `Counter`;
* `src/concurrency/primes/procs.py` — the process pool with job/result
  queues, sentinel shutdown, and the `report` drain loop;
* `src/concurrency/primes/primes.py` — `is_prime` and `PRIME_FIXTURE`.

Network effects are abstracted by a `FetchEvent` describing what happens
when one job is executed (the HTTP response or the raised failure), since
the transport is an external collaborator.  Queues are modelled as lists in
arrival order; wall-clock measurement is modelled as the constant 0 since
no claim observes elapsed time.
-/

namespace Flags2

/-- The `DownloadStatus` enum from `flags2_common` (OK / NOT_FOUND / ERROR),
as used by `flags2_sequential.py` and `flags2_threadpool.py`. -/
inductive DownloadStatus where
  | OK
  | NOT_FOUND
  | ERROR
deriving DecidableEq, Repr

/-- Model of `Counter[DownloadStatus]`: a tally of how many jobs landed in each
status category. -/
structure Tally where
  ok : Nat
  notFound : Nat
  error : Nat
deriving DecidableEq, Repr

/-- The empty `Counter()`. -/
def Tally.empty : Tally := ⟨0, 0, 0⟩

/-- One increment, `counter[status] += 1`. -/
def Tally.incr (t : Tally) : DownloadStatus → Tally
  | .OK => { t with ok := t.ok + 1 }
  | .NOT_FOUND => { t with notFound := t.notFound + 1 }
  | .ERROR => { t with error := t.error + 1 }

/-- Sum of all counts in the tally. -/
def Tally.total (t : Tally) : Nat := t.ok + t.notFound + t.error

/-- What happens when one download job executes: `get_flag` either returns
the image bytes, or `raise_for_status` raises `httpx.HTTPStatusError` with
some status code, or the transport raises `httpx.RequestError`, or the
operator interrupts the job with `KeyboardInterrupt`. -/
inductive FetchEvent where
  | success
  | httpError (code : Nat)
  | requestError (msg : String)
  | keyboardInterrupt
deriving DecidableEq, Repr

/-- The exceptions that can escape `download_one`. -/
inductive Exc where
  | httpStatusError (code : Nat)
  | requestError (msg : String)
  | keyboardInterrupt
deriving DecidableEq, Repr

/-- Function `download_one` from `flags2_sequential.py`: try `get_flag`; on
`HTTPStatusError` with code 404 return `NOT_FOUND`, otherwise re-raise;
on a normal return, `save_flag` and return `OK`.  Other exceptions
(`RequestError`, `KeyboardInterrupt`) propagate. -/
def download_one (ev : FetchEvent) : Except Exc DownloadStatus :=
  match ev with
  | .success => .ok DownloadStatus.OK
  | .httpError code =>
      if code = 404 then .ok DownloadStatus.NOT_FOUND
      else .error (.httpStatusError code)
  | .requestError msg => .error (.requestError msg)
  | .keyboardInterrupt => .error .keyboardInterrupt

/-- The per-job body of `download_many` in `flags2_sequential.py`: call
`download_one` inside `try`, set `error_msg` in the `except` arms, force
`status = DownloadStatus.ERROR` when `error_msg` is non-empty, and count
the job.  `none` models the `KeyboardInterrupt` arm, which breaks out of
the loop without counting. -/
def classify_one (ev : FetchEvent) : Option DownloadStatus :=
  match download_one ev with
  | .ok status => some status
  | .error (.httpStatusError _) => some DownloadStatus.ERROR
  | .error (.requestError _) => some DownloadStatus.ERROR
  | .error .keyboardInterrupt => none

/-- The `for cc in cc_iter` loop of `download_many` in
`flags2_sequential.py`, over the jobs in iteration order (the source
iterates `sorted(cc_list)`; the model receives the jobs already in that
order, paired with their fetch events). -/
def seqLoop (counter : Tally) : List (String × FetchEvent) → Tally
  | [] => counter
  | (_, ev) :: rest =>
    match classify_one ev with
    | some status => seqLoop (counter.incr status) rest
    | none => counter

/-- Function `download_many` from `flags2_sequential.py`, with the printing and the
progress bar dropped. -/
def download_many_sequential (jobs : List (String × FetchEvent)) : Tally :=
  seqLoop Tally.empty jobs

/-- Failure mode of the thread-pool `download_many`: reading a local
variable that was never assigned raises Python's unbound-local
(`NameError`) at run time. -/
inductive PyError where
  | nameError
deriving DecidableEq, Repr

/-- The `error_msg` string built by the `except httpx.HTTPStatusError`
arm: `'HTTP error {resp.status_code} - {resp.reason_phrase}'`. -/
def httpErrorMsg (code : Nat) : String :=
  "HTTP error " ++ toString code ++ " - "

/-- The `error_msg` string built by the `except httpx.RequestError` arm:
`f'{exc} {type(exc)}'.strip()` — always non-empty because the class name
is part of it. -/
def requestErrorMsg (msg : String) : String :=
  (msg ++ " <class httpx.RequestError>").trim

/-- The `for future in done_iter` loop of `download_many` in
`flags2_threadpool.py`.  The loop only assigns the locals `error_msg` and
`status` (the tallying statements sit *after* the loop in the source);
`none` means the local was never assigned.  The `KeyboardInterrupt` arm
breaks out with the locals as they stand.  Jobs are given in completion
order (the order `as_completed` yields them). -/
def tpLoop (error_msg : Option String) (status : Option DownloadStatus) :
    List (String × FetchEvent) → Option String × Option DownloadStatus
  | [] => (error_msg, status)
  | (_, ev) :: rest =>
    match download_one ev with
    | .ok st => tpLoop (some "") (some st) rest
    | .error (.httpStatusError code) => tpLoop (some (httpErrorMsg code)) status rest
    | .error (.requestError msg) => tpLoop (some (requestErrorMsg msg)) status rest
    | .error .keyboardInterrupt => (error_msg, status)

/-- Function `download_many` from `flags2_threadpool.py`.  In the source the block

    if error_msg:
        status = DownloadStatus.ERROR
    counter[status] += 1

is indented at the level of the `for future in done_iter:` statement, i.e.
it executes exactly once, after the loop, using whatever values the locals
`error_msg` and `status` last received.  If the loop body never assigned
them (empty batch, or interrupt on the first completion), reading them
raises an unbound-local error. -/
def download_many_threadpool (jobs : List (String × FetchEvent)) :
    Except PyError Tally :=
  let st := tpLoop none none jobs
  match st.1 with
  | none => .error .nameError
  | some msg =>
    let status' := if msg ≠ "" then some DownloadStatus.ERROR else st.2
    match status' with
    | none => .error .nameError
    | some status => .ok (Tally.empty.incr status)

end Flags2

namespace Primes

/-- The list `PRIME_FIXTURE` from `primes.py`: pairs of a number and its expected
primality. -/
def PRIME_FIXTURE : List (Int × Bool) :=
  [(2, true),
   (142702110479723, true),
   (299593572317531, true),
   (3333333333333301, true),
   (3333333333333333, false),
   (3333335652092209, false),
   (4444444444444423, true),
   (4444444444444444, false),
   (4444444488888889, false),
   (5555553133149889, false),
   (5555555555555503, true),
   (5555555555555555, false),
   (6666666666666666, false),
   (6666666666666719, true),
   (6666667141414921, false),
   (7777777536340681, false),
   (7777777777777753, true),
   (7777777777777777, false),
   (9999999999999917, true),
   (9999999999999999, false)]

/-- The list `NUMBERS = [n for n, _ in PRIME_FIXTURE]`. -/
def NUMBERS : List Int := PRIME_FIXTURE.map Prod.fst

/-- Function `is_prime` from `primes.py`.  Python integers are modelled as `Int`;
`math.isqrt` is `Nat.sqrt`; the loop `for i in range(3, root + 1, 2)`
runs over `List.range' 3 len 2` where `len = (root + 1 - 3 + 1) / 2` is
the length of `range(3, root + 1, 2)`, and returning `False` on the first
divisor found is `List.all`. -/
def is_prime (n : Int) : Bool :=
  if n < 2 then false
  else if n = 2 then true
  else if n % 2 = 0 then false
  else
    let m := n.toNat
    let root := Nat.sqrt m
    (List.range' 3 ((root + 1 - 3 + 1) / 2) 2).all fun i => m % i != 0

/-- The `PrimeResult` named tuple from `procs.py`.  The `elapsed` field is a wall-clock
measurement in the source; no claim observes it, and the model fixes it
to `0`. -/
structure PrimeResult where
  n : Int
  prime : Bool
  elapsed : Nat
deriving DecidableEq, Repr

/-- Function `check` from `procs.py` (with the timing modelled as `0`). -/
def check (n : Int) : PrimeResult := ⟨n, is_prime n, 0⟩

/-- The worker-done marker `PrimeResult(0, False, 0.0)`. -/
def doneMarker : PrimeResult := ⟨0, false, 0⟩

/-- Function `worker` from `procs.py`, as a function from the sequence of values
this worker dequeues from the job queue to the sequence of messages it
puts on the result queue.  `while n := jobs.get():` keeps looping while
the dequeued value is non-zero (`0` is the poison pill); on dequeuing `0`
the worker puts `PrimeResult(0, False, 0.0)` and terminates.  An exhausted
input list models a worker blocked on an empty channel, which emits
nothing further. -/
def worker : List Int → List PrimeResult
  | [] => []
  | n :: rest =>
    if n = 0 then [doneMarker]
    else check n :: worker rest

/-- Function `start_jobs` from `procs.py`, as the sequence of values the dispatcher
puts on the job queue, in order: first every number of the batch (the
source iterates the module-level `NUMBERS`; the model takes the batch as
a parameter), then one `0` per started worker process. -/
def start_jobs_queue (numbers : List Int) (procs : Nat) : List Int :=
  let q := numbers.foldl (fun q n => q ++ [n]) []
  (List.range procs).foldl (fun q _ => q ++ [0]) q

/-- The `while procs_done < procs` loop of `report` from `procs.py`, over
the result-queue content in arrival order.  Returns `none` when the queue
runs dry while the loop still wants a message (the dispatcher would block
forever); otherwise returns the final `checked` count together with the
messages left unconsumed on the queue. -/
def reportLoop (procs : Nat) :
    Nat → Nat → List PrimeResult → Option (Nat × List PrimeResult)
  | procs_done, checked, [] =>
    if procs_done < procs then none else some (checked, [])
  | procs_done, checked, r :: rest =>
    if procs_done < procs then
      if r.n = 0 then reportLoop procs (procs_done + 1) checked rest
      else reportLoop procs procs_done (checked + 1) rest
    else some (checked, r :: rest)

/-- Function `report` from `procs.py`: drain the result queue starting from
`checked = 0`, `procs_done = 0`. -/
def report (procs : Nat) (results : List PrimeResult) :
    Option (Nat × List PrimeResult) :=
  reportLoop procs 0 0 results

/-- Worker-done markers in a result stream (`n == 0`). -/
def countMarkers (s : List PrimeResult) : Nat :=
  (s.filter fun r => r.n = 0).length

/-- Real results in a result stream (`n != 0`). -/
def countResults (s : List PrimeResult) : Nat :=
  (s.filter fun r => r.n ≠ 0).length

end Primes


/-- Modular exponentiation by repeated squaring, with explicit structural
fuel so that the kernel can evaluate it on large inputs.  Verification
apparatus for certifying the primality of the `PRIME_FIXTURE` entries. -/
def powModAux (p : Nat) : Nat → Nat → Nat → Nat → Nat
  | 0, _, _, acc => acc % p
  | fuel + 1, a, k, acc =>
    if k = 0 then acc % p
    else powModAux p fuel (a * a % p) (k / 2)
      (if k % 2 = 1 then acc * a % p else acc)

/-- Computes `a ^ k % p` for any exponent below `2 ^ 64`. -/
def powMod (p a k : Nat) : Nat := powModAux p 64 a k 1

/-- Primality exactly as the claim words it: `n ≥ 2` and `n` has no
divisor `d` with `1 < d < n`. -/
def ClaimPrime (n : Int) : Prop :=
  2 ≤ n ∧ ∀ d : Int, 1 < d → d < n → ¬ d ∣ n

lemma powModAux_eq (p : Nat) :
    ∀ fuel a k acc, k < 2 ^ fuel →
      powModAux p fuel a k acc = acc * a ^ k % p := by
  intro fuel
  induction fuel with
  | zero =>
    intro a k acc hk
    have hk0 : k = 0 := by simpa using hk
    subst hk0
    simp [powModAux]
  | succ fuel ih =>
    intro a k acc hk
    by_cases h0 : k = 0
    · subst h0; simp [powModAux]
    · have hk2 : k / 2 < 2 ^ fuel := by
        have h2 : 2 ^ (fuel + 1) = 2 ^ fuel * 2 := by ring
        omega
      rw [powModAux, if_neg h0, ih _ _ _ hk2]
      have base : (a * a % p) ^ (k / 2) ≡ (a * a) ^ (k / 2) [MOD p] :=
        (Nat.mod_modEq (a * a) p).pow _
      rcases Nat.even_or_odd k with he | ho
      · obtain ⟨m, hm⟩ := he
        have hm2 : k / 2 = m := by omega
        have hodd : ¬ k % 2 = 1 := by omega
        rw [if_neg hodd, hm2]
        have step : acc * (a * a % p) ^ m ≡ acc * a ^ k [MOD p] := by
          calc acc * (a * a % p) ^ m
              ≡ acc * (a * a) ^ m [MOD p] :=
                (Nat.ModEq.refl acc).mul (hm2 ▸ base)
            _ = acc * a ^ k := by rw [hm, pow_add, mul_pow]
        exact step
      · obtain ⟨m, hm⟩ := ho
        have hm2 : k / 2 = m := by omega
        have hodd : k % 2 = 1 := by omega
        rw [if_pos hodd, hm2]
        have step : (acc * a % p) * (a * a % p) ^ m ≡ acc * a ^ k [MOD p] := by
          calc (acc * a % p) * (a * a % p) ^ m
              ≡ (acc * a) * (a * a) ^ m [MOD p] :=
                (Nat.mod_modEq (acc * a) p).mul (hm2 ▸ base)
            _ = acc * a ^ k := by
                rw [hm, pow_succ, pow_mul, pow_two]; ring
        exact step

lemma powMod_eq (p a k : Nat) (hk : k < 2 ^ 64) : powMod p a k = a ^ k % p := by
  rw [powMod, powModAux_eq p 64 a k 1 hk, one_mul]

/-- Every prime divisor of a number is listed in any prime factorization
of that number. -/
lemma prime_mem_of_factorization (L : List (Nat × Nat)) :
    ∀ m, (L.map fun pe => pe.1 ^ pe.2).prod = m →
      (∀ pe ∈ L, Nat.Prime pe.1) →
      ∀ q : Nat, Nat.Prime q → q ∣ m → q ∈ L.map Prod.fst := by
  induction L with
  | nil =>
    intro m hm _ q hq hdvd
    simp at hm
    subst hm
    exact absurd (Nat.eq_one_of_dvd_one hdvd) hq.ne_one
  | cons pe rest ih =>
    intro m hm hL q hq hdvd
    simp only [List.map_cons, List.prod_cons] at hm
    subst hm
    rcases (Nat.Prime.dvd_mul hq).mp hdvd with h | h
    · have h1 : q ∣ pe.1 := hq.dvd_of_dvd_pow h
      have h2 : q = pe.1 :=
        (Nat.prime_dvd_prime_iff_eq hq (hL pe (List.mem_cons_self _ _))).mp h1
      simp [h2]
    · have := ih _ rfl (fun x hx => hL x (List.mem_cons_of_mem _ hx)) q hq h
      simp only [List.map_cons]
      exact List.mem_cons_of_mem _ this

/-- Pratt / Lucas primality certificate: a witness of order `p - 1`
modulo `p`, checked with `powMod` against a prime factorization of
`p - 1`, proves `p` prime. -/
lemma pratt_cert (p a : Nat) (hp : 1 < p) (hsz : p - 1 < 2 ^ 64)
    (L : List (Nat × Nat))
    (hprod : (L.map fun pe => pe.1 ^ pe.2).prod = p - 1)
    (hL : ∀ pe ∈ L, Nat.Prime pe.1)
    (h1 : powMod p a (p - 1) = 1)
    (hne : ∀ pe ∈ L, powMod p a ((p - 1) / pe.1) ≠ 1) : Nat.Prime p := by
  haveI : NeZero p := ⟨by omega⟩
  haveI : Fact (1 < p) := ⟨hp⟩
  have hbridge : ∀ m : Nat, m < 2 ^ 64 →
      (((a : ZMod p) ^ m = 1) ↔ powMod p a m = 1) := by
    intro m hm
    rw [powMod_eq p a m hm]
    rw [show ((a : ZMod p) ^ m) = ((a ^ m : ℕ) : ZMod p) by push_cast; ring]
    constructor
    · intro h
      have hv := congrArg ZMod.val h
      rwa [ZMod.val_natCast, ZMod.val_one] at hv
    · intro h
      calc ((a ^ m : ℕ) : ZMod p) = ((a ^ m % p : ℕ) : ZMod p) :=
            (ZMod.natCast_mod _ _).symm
        _ = ((1 : ℕ) : ZMod p) := by rw [h]
        _ = 1 := Nat.cast_one
  apply lucas_primality p (a : ZMod p)
  · exact (hbridge (p - 1) hsz).mpr h1
  · intro q hq hqdvd
    have hqmem : q ∈ L.map Prod.fst :=
      prime_mem_of_factorization L (p - 1) hprod hL q hq hqdvd
    obtain ⟨pe, hpe, hq1⟩ := List.mem_map.mp hqmem
    intro hcontra
    have hlt : (p - 1) / q < 2 ^ 64 :=
      lt_of_le_of_lt (Nat.div_le_self _ _) hsz
    exact hne pe hpe (hq1 ▸ (hbridge ((p - 1) / q) hlt).mp hcontra)

lemma prime_263013367 : Nat.Prime 263013367 := by
  apply pratt_cert 263013367 7 (by norm_num) (by norm_num)
    [(2, 1), (3, 1), (7, 1), (11, 1), (97, 1), (5869, 1)]
  · decide
  · intro pe hpe
    fin_cases hpe <;> norm_num
  · decide
  · intro pe hpe
    fin_cases hpe <;> decide

lemma prime_4096861991 : Nat.Prime 4096861991 := by
  apply pratt_cert 4096861991 17 (by norm_num) (by norm_num)
    [(2, 1), (5, 1), (13, 1), (101, 1), (312023, 1)]
  · decide
  · intro pe hpe
    fin_cases hpe <;> norm_num
  · decide
  · intro pe hpe
    fin_cases hpe <;> decide

lemma prime_11487175717 : Nat.Prime 11487175717 := by
  apply pratt_cert 11487175717 5 (by norm_num) (by norm_num)
    [(2, 2), (3, 1), (61, 1), (15692863, 1)]
  · decide
  · intro pe hpe
    fin_cases hpe <;> norm_num
  · decide
  · intro pe hpe
    fin_cases hpe <;> decide

lemma prime_30049505749 : Nat.Prime 30049505749 := by
  apply pratt_cert 30049505749 2 (by norm_num) (by norm_num)
    [(2, 2), (3, 2), (37, 1), (163, 1), (138403, 1)]
  · decide
  · intro pe hpe
    fin_cases hpe <;> norm_num
  · decide
  · intro pe hpe
    fin_cases hpe <;> decide

lemma prime_390563974379 : Nat.Prime 390563974379 := by
  apply pratt_cert 390563974379 2 (by norm_num) (by norm_num)
    [(2, 1), (17, 1), (11487175717, 1)]
  · decide
  · intro pe hpe
    fin_cases hpe <;> first
      | exact prime_11487175717
      | norm_num
  · decide
  · intro pe hpe
    fin_cases hpe <;> decide

lemma prime_11990407673861 : Nat.Prime 11990407673861 := by
  apply pratt_cert 11990407673861 2 (by norm_num) (by norm_num)
    [(2, 2), (5, 1), (7, 1), (11, 1), (227, 1), (3257, 1), (10531, 1)]
  · decide
  · intro pe hpe
    fin_cases hpe <;> norm_num
  · decide
  · intro pe hpe
    fin_cases hpe <;> decide

lemma prime_3333333333333359 : Nat.Prime 3333333333333359 := by
  apply pratt_cert 3333333333333359 11 (by norm_num) (by norm_num)
    [(2, 1), (139, 1), (11990407673861, 1)]
  · decide
  · intro pe hpe
    fin_cases hpe <;> first
      | exact prime_11990407673861
      | norm_num
  · decide
  · intro pe hpe
    fin_cases hpe <;> decide

lemma prime_142702110479723 : Nat.Prime 142702110479723 := by
  apply pratt_cert 142702110479723 2 (by norm_num) (by norm_num)
    [(2, 1), (67, 1), (4049, 1), (263013367, 1)]
  · decide
  · intro pe hpe
    fin_cases hpe <;> first
      | exact prime_263013367
      | norm_num
  · decide
  · intro pe hpe
    fin_cases hpe <;> decide

lemma prime_299593572317531 : Nat.Prime 299593572317531 := by
  apply pratt_cert 299593572317531 2 (by norm_num) (by norm_num)
    [(2, 1), (5, 1), (997, 1), (30049505749, 1)]
  · decide
  · intro pe hpe
    fin_cases hpe <;> first
      | exact prime_30049505749
      | norm_num
  · decide
  · intro pe hpe
    fin_cases hpe <;> decide

lemma prime_3333333333333301 : Nat.Prime 3333333333333301 := by
  apply pratt_cert 3333333333333301 2 (by norm_num) (by norm_num)
    [(2, 2), (3, 1), (5, 2), (11, 1), (239, 1), (4649, 1), (909091, 1)]
  · decide
  · intro pe hpe
    fin_cases hpe <;> norm_num
  · decide
  · intro pe hpe
    fin_cases hpe <;> decide

lemma prime_4444444444444423 : Nat.Prime 4444444444444423 := by
  apply pratt_cert 4444444444444423 3 (by norm_num) (by norm_num)
    [(2, 1), (3, 1), (11, 1), (71, 1), (49297, 1), (19239541, 1)]
  · decide
  · intro pe hpe
    fin_cases hpe <;> norm_num
  · decide
  · intro pe hpe
    fin_cases hpe <;> decide

lemma prime_5555555555555503 : Nat.Prime 5555555555555503 := by
  apply pratt_cert 5555555555555503 3 (by norm_num) (by norm_num)
    [(2, 1), (3, 4), (7, 1), (523, 1), (15787, 1), (593353, 1)]
  · decide
  · intro pe hpe
    fin_cases hpe <;> norm_num
  · decide
  · intro pe hpe
    fin_cases hpe <;> decide

lemma prime_6666666666666719 : Nat.Prime 6666666666666719 := by
  apply pratt_cert 6666666666666719 11 (by norm_num) (by norm_num)
    [(2, 1), (3333333333333359, 1)]
  · decide
  · intro pe hpe
    fin_cases hpe <;> first
      | exact prime_3333333333333359
      | norm_num
  · decide
  · intro pe hpe
    fin_cases hpe <;> decide

lemma prime_7777777777777753 : Nat.Prime 7777777777777753 := by
  apply pratt_cert 7777777777777753 5 (by norm_num) (by norm_num)
    [(2, 3), (3, 1), (79103, 1), (4096861991, 1)]
  · decide
  · intro pe hpe
    fin_cases hpe <;> first
      | exact prime_4096861991
      | norm_num
  · decide
  · intro pe hpe
    fin_cases hpe <;> decide

lemma prime_9999999999999917 : Nat.Prime 9999999999999917 := by
  apply pratt_cert 9999999999999917 2 (by norm_num) (by norm_num)
    [(2, 2), (37, 1), (173, 1), (390563974379, 1)]
  · decide
  · intro pe hpe
    fin_cases hpe <;> first
      | exact prime_390563974379
      | norm_num
  · decide
  · intro pe hpe
    fin_cases hpe <;> decide

lemma claimPrime_iff (n : Int) :
    ClaimPrime n ↔ 2 ≤ n ∧ Nat.Prime n.toNat := by
  constructor
  · rintro ⟨h2, hnd⟩
    refine ⟨h2, ?_⟩
    rw [Nat.prime_def_lt]
    refine ⟨by omega, ?_⟩
    intro m hm hdvd
    by_contra hm1
    have hm0 : m ≠ 0 := by
      rintro rfl
      have := Nat.eq_zero_of_zero_dvd hdvd
      omega
    have hdint : (m : Int) ∣ n := by
      have hn : ((n.toNat : Nat) : Int) = n := Int.toNat_of_nonneg (by omega)
      exact hn ▸ Int.natCast_dvd_natCast.mpr hdvd
    exact hnd (m : Int) (by omega) (by omega) hdint
  · rintro ⟨h2, hp⟩
    refine ⟨h2, ?_⟩
    intro d hd1 hdn hdvd
    have hd0 : 0 ≤ d := by omega
    have hdvdn : d.toNat ∣ n.toNat := by
      rw [← Int.toNat_of_nonneg hd0, ← Int.toNat_of_nonneg (show (0:Int) ≤ n by omega)] at hdvd
      exact Int.natCast_dvd_natCast.mp hdvd
    rcases hp.eq_one_or_self_of_dvd d.toNat hdvdn with h | h <;> omega

lemma is_prime_iff (n : Int) :
    Primes.is_prime n = true ↔ 2 ≤ n ∧ Nat.Prime n.toNat := by
  by_cases h1 : n < 2
  · rw [Primes.is_prime, if_pos h1]
    simp only [Bool.false_eq_true, false_iff, not_and]
    intro h
    omega
  · by_cases h2 : n = 2
    · subst h2
      rw [Primes.is_prime, if_neg h1, if_pos rfl]
      simp only [true_iff]
      exact ⟨by norm_num, Nat.prime_two⟩
    · by_cases h3 : n % 2 = 0
      · rw [Primes.is_prime, if_neg h1, if_neg h2, if_pos h3]
        simp only [Bool.false_eq_true, false_iff, not_and]
        intro _
        intro hp
        have hdvd : 2 ∣ n.toNat := by omega
        rcases hp.eq_one_or_self_of_dvd 2 hdvd with h | h <;> omega
      · rw [Primes.is_prime, if_neg h1, if_neg h2, if_neg h3]
        simp only [List.all_eq_true, bne_iff_ne, ne_eq, List.mem_range']
        have ht2 : 2 ≤ n.toNat := by omega
        have htodd : n.toNat % 2 = 1 := by omega
        rw [Nat.prime_def_le_sqrt, and_iff_right ht2]
        rw [iff_iff_implies_and_implies]
        constructor
        · intro hall
          rw [and_iff_right (show 2 ≤ n by omega)]
          intro m hm2 hmroot hdvd
          have hmodd : m % 2 = 1 := by
            rcases Nat.even_or_odd m with he | ho
            · exfalso
              have h2t : 2 ∣ n.toNat := he.two_dvd.trans hdvd
              omega
            · obtain ⟨k, hk⟩ := ho
              omega
          have hm3 : 3 ≤ m := by omega
          have hj : m = 3 + 2 * ((m - 3) / 2) := by omega
          have hmem : ∃ i < (Nat.sqrt n.toNat + 1 - 3 + 1) / 2,
              m = 3 + 2 * i := ⟨(m - 3) / 2, by omega, hj⟩
          exact hall m hmem (Nat.mod_eq_zero_of_dvd hdvd)
        · rintro ⟨_, hnd⟩
          intro i hi
          obtain ⟨j, hjlt, hje⟩ := hi
          intro hmod
          have hdvd : i ∣ n.toNat := Nat.dvd_of_mod_eq_zero hmod
          exact hnd i (by omega) (by omega) hdvd

lemma is_prime_iff_claimPrime (n : Int) :
    Primes.is_prime n = true ↔ ClaimPrime n := by
  rw [is_prime_iff, claimPrime_iff]

lemma is_prime_true_of_prime (m : Nat) (hm : Nat.Prime m) :
    Primes.is_prime (m : Int) = true := by
  rw [is_prime_iff]
  refine ⟨by exact_mod_cast hm.two_le, ?_⟩
  simpa using hm

lemma is_prime_false_of_divisor (n d : Int) (h1 : 1 < d) (h2 : d < n)
    (h3 : n % d = 0) : Primes.is_prime n = false := by
  have hnot : ¬ ClaimPrime n := fun hcp =>
    hcp.2 d h1 h2 (Int.dvd_of_emod_eq_zero h3)
  cases hb : Primes.is_prime n with
  | false => rfl
  | true => exact absurd ((is_prime_iff_claimPrime n).mp hb) hnot

lemma fixture_check :
    ∀ pr ∈ Primes.PRIME_FIXTURE, Primes.is_prime pr.1 = pr.2 := by
  intro pr hpr
  fin_cases hpr
  · exact is_prime_true_of_prime 2 Nat.prime_two
  · exact is_prime_true_of_prime 142702110479723 prime_142702110479723
  · exact is_prime_true_of_prime 299593572317531 prime_299593572317531
  · exact is_prime_true_of_prime 3333333333333301 prime_3333333333333301
  · exact is_prime_false_of_divisor 3333333333333333 3 (by decide) (by decide) (by decide)
  · exact is_prime_false_of_divisor 3333335652092209 57735047 (by decide) (by decide) (by decide)
  · exact is_prime_true_of_prime 4444444444444423 prime_4444444444444423
  · exact is_prime_false_of_divisor 4444444444444444 2 (by decide) (by decide) (by decide)
  · exact is_prime_false_of_divisor 4444444488888889 66666667 (by decide) (by decide) (by decide)
  · exact is_prime_false_of_divisor 5555553133149889 74535583 (by decide) (by decide) (by decide)
  · exact is_prime_true_of_prime 5555555555555503 prime_5555555555555503
  · exact is_prime_false_of_divisor 5555555555555555 5 (by decide) (by decide) (by decide)
  · exact is_prime_false_of_divisor 6666666666666666 2 (by decide) (by decide) (by decide)
  · exact is_prime_true_of_prime 6666666666666719 prime_6666666666666719
  · exact is_prime_false_of_divisor 6666667141414921 81649661 (by decide) (by decide) (by decide)
  · exact is_prime_false_of_divisor 7777777536340681 88191709 (by decide) (by decide) (by decide)
  · exact is_prime_true_of_prime 7777777777777753 prime_7777777777777753
  · exact is_prime_false_of_divisor 7777777777777777 7 (by decide) (by decide) (by decide)
  · exact is_prime_true_of_prime 9999999999999917 prime_9999999999999917
  · exact is_prime_false_of_divisor 9999999999999999 3 (by decide) (by decide) (by decide)

lemma foldl_snoc (l : List Int) : ∀ q, l.foldl (fun q n => q ++ [n]) q = q ++ l := by
  induction l with
  | nil => intro q; simp
  | cons n tl ih => intro q; simp [List.foldl_cons, ih]

lemma foldl_sentinels (k : Nat) :
    ∀ q : List Int, (List.range k).foldl (fun q _ => q ++ [0]) q
      = q ++ List.replicate k 0 := by
  induction k with
  | zero => intro q; simp
  | succ k ih =>
    intro q
    rw [List.range_succ, List.foldl_append, ih]
    simp [List.replicate_succ']

/-- The job queue that `start_jobs` produces is the batch followed by one
sentinel per worker. -/
lemma start_jobs_queue_eq (numbers : List Int) (procs : Nat) :
    Primes.start_jobs_queue numbers procs
      = numbers ++ List.replicate procs 0 := by
  unfold Primes.start_jobs_queue
  rw [foldl_snoc, foldl_sentinels]
  simp

/-- A worker that dequeues `body` and then the first sentinel emits one
`check` result per job of `body`, then exactly one done marker, and stops
(whatever is behind the sentinel in its view of the queue). -/
lemma worker_eq (body rest : List Int) (h : (0 : Int) ∉ body) :
    Primes.worker (body ++ 0 :: rest)
      = body.map Primes.check ++ [Primes.doneMarker] := by
  induction body with
  | nil => simp [Primes.worker]
  | cons n tl ih =>
    have hn : n ≠ 0 := fun h0 => h (h0 ▸ List.mem_cons_self _ _)
    have htl : (0 : Int) ∉ tl := fun hm => h (List.mem_cons_of_mem _ hm)
    rw [List.cons_append, Primes.worker, if_neg hn, ih htl]
    simp

lemma countMarkers_cons (r : Primes.PrimeResult) (s : List Primes.PrimeResult) :
    Primes.countMarkers (r :: s)
      = (if r.n = 0 then 1 else 0) + Primes.countMarkers s := by
  simp only [Primes.countMarkers, List.filter_cons]
  by_cases hr : r.n = 0 <;> simp [hr, Nat.add_comm]

lemma countResults_cons (r : Primes.PrimeResult) (s : List Primes.PrimeResult) :
    Primes.countResults (r :: s)
      = (if r.n = 0 then 0 else 1) + Primes.countResults s := by
  simp only [Primes.countResults, List.filter_cons]
  by_cases hr : r.n = 0 <;> simp [hr, Nat.add_comm]

/-- Draining a result stream that ends with its last marker consumes the
whole stream and counts every non-marker result. -/
lemma reportLoop_drain (procs : Nat) :
    ∀ (s : List Primes.PrimeResult) (pd ch : Nat),
      (∃ t m, s = t ++ [m] ∧ m.n = 0) →
      pd + Primes.countMarkers s = procs →
      Primes.reportLoop procs pd ch s
        = some (ch + Primes.countResults s, []) := by
  intro s
  induction s with
  | nil =>
    rintro pd ch ⟨t, m, ht, _⟩ _
    exact absurd ht (by cases t <;> simp)
  | cons r rest ih =>
    rintro pd ch ⟨t, m, ht, hm⟩ hc
    have hcm1 : 1 ≤ Primes.countMarkers (r :: rest) := by
      rw [ht]
      simp [Primes.countMarkers, List.filter_append, hm]
    have hpd : pd < procs := by omega
    cases t with
    | nil =>
      simp only [List.nil_append, List.cons.injEq] at ht
      obtain ⟨rfl, rfl⟩ := ht
      rw [countMarkers_cons, if_pos hm] at hc
      simp only [Primes.countMarkers, List.filter_nil, List.length_nil] at hc
      rw [Primes.reportLoop, if_pos hpd, if_pos hm,
        Primes.reportLoop, if_neg (by omega)]
      rw [countResults_cons, if_pos hm]
      simp [Primes.countResults]
    | cons a t' =>
      simp only [List.cons_append, List.cons.injEq] at ht
      obtain ⟨rfl, rfl⟩ := ht
      have hend : ∃ u m2, t' ++ [m] = u ++ [m2] ∧ m2.n = 0 := ⟨t', m, rfl, hm⟩
      by_cases hr : r.n = 0
      · rw [Primes.reportLoop, if_pos hpd, if_pos hr]
        rw [countMarkers_cons, if_pos hr] at hc
        rw [ih (pd + 1) ch hend (by omega)]
        rw [countResults_cons, if_pos hr]
        simp
      · rw [Primes.reportLoop, if_pos hpd, if_neg hr]
        rw [countMarkers_cons, if_neg hr] at hc
        rw [ih pd (ch + 1) hend (by omega)]
        rw [countResults_cons, if_neg hr]
        simp only [Option.some.injEq, Prod.mk.injEq, and_true]
        omega

/-- Splitting each worker's consumed stream (jobs then its one sentinel)
into jobs and sentinel, at the multiset level: the streams together hold
their jobs plus one `0` per stream, each stream contains the sentinel
exactly once, and no `0` survives the job filter. -/
lemma partition_bodies (Ls : List (List Int))
    (hL : ∀ L ∈ Ls, ∃ body, (0 : Int) ∉ body ∧ L = body ++ [0]) :
    (Ls.map fun L => Multiset.ofList L).sum
      = (Ls.map fun L => Multiset.ofList (L.filter fun x => x != 0)).sum
        + Multiset.replicate Ls.length 0
    ∧ (∀ L ∈ Ls, L.count 0 = 1)
    ∧ Multiset.count 0
        ((Ls.map fun L => Multiset.ofList (L.filter fun x => x != 0)).sum)
        = 0 := by
  induction Ls with
  | nil => simp
  | cons L rest ih =>
    obtain ⟨hsum, hcount, hzero⟩ :=
      ih fun L' hL' => hL L' (List.mem_cons_of_mem _ hL')
    obtain ⟨body, hb0, hbeq⟩ := hL L (List.mem_cons_self _ _)
    have hfilter : L.filter (fun x => x != 0) = body := by
      subst hbeq
      rw [List.filter_append]
      have h1 : body.filter (fun x => x != 0) = body :=
        List.filter_eq_self.mpr fun a ha => by
          simp only [bne_iff_ne, ne_eq]
          intro h
          exact hb0 (h ▸ ha)
      have h2 : List.filter (fun x => x != 0) [0] = ([] : List Int) := by decide
      rw [h1, h2, List.append_nil]
    have hcntL : L.count 0 = 1 := by
      subst hbeq
      rw [List.count_append]
      rw [List.count_eq_zero.mpr hb0]
      decide
    have hbodyzero : (Multiset.ofList (L.filter fun x => x != 0)).count 0 = 0 := by
      rw [hfilter]
      simpa using List.count_eq_zero.mpr hb0
    refine ⟨?_, ?_, ?_⟩
    · simp only [List.map_cons, List.sum_cons, List.length_cons]
      rw [hsum]
      have hLsplit : Multiset.ofList L
          = Multiset.ofList (L.filter fun x => x != 0) + ↑([0] : List Int) := by
        rw [hfilter, hbeq]
        exact congrArg _ rfl
      rw [hLsplit]
      rw [Multiset.replicate_succ]
      have : Multiset.ofList ([0] : List Int) = {(0 : Int)} := rfl
      rw [this]
      have hrep : (0 : Int) ::ₘ Multiset.replicate rest.length 0
          = {(0 : Int)} + Multiset.replicate rest.length 0 := by
        simp [Multiset.singleton_add]
      rw [hrep]
      abel
    · intro L' hL'
      rcases List.mem_cons.mp hL' with rfl | h
      · exact hcntL
      · exact hcount L' h
    · simp only [List.map_cons, List.sum_cons, Multiset.count_add]
      rw [hzero, hbodyzero]

/-- C1: the claim says the sum of the counts in the tally returned by
`download_many` equals the batch size N.  The thread-pool
`download_many` violates it: the tallying statements are indented outside
the `for future in done_iter:` loop, so exactly one outcome is counted.
On a 2-job batch where both jobs succeed, the thread-pool version returns
a tally of total 1 while the sequential version returns total 2. -/
theorem C1_threadpool_tally_bug :
    Flags2.download_many_threadpool
        [("AA", Flags2.FetchEvent.success), ("BB", Flags2.FetchEvent.success)]
      = Except.ok ⟨1, 0, 0⟩
    ∧ Flags2.Tally.total ⟨1, 0, 0⟩ = 1
    ∧ Flags2.download_many_sequential
        [("AA", Flags2.FetchEvent.success), ("BB", Flags2.FetchEvent.success)]
      = ⟨2, 0, 0⟩
    ∧ Flags2.Tally.total ⟨2, 0, 0⟩ = 2 :=
  ⟨rfl, rfl, rfl, rfl⟩

/-- C2: the outcome classifier of `flags2_sequential.download_many` maps a
normal return to `OK`, an HTTP-status failure to `NOT_FOUND` exactly when
the code is 404, and every other raised failure (non-404 status failures
and transport failures) to `ERROR`. -/
theorem C2_classifier_behaviour :
    (∀ ev : Flags2.FetchEvent,
        Flags2.classify_one ev = some Flags2.DownloadStatus.NOT_FOUND ↔
          ev = Flags2.FetchEvent.httpError 404)
    ∧ (∀ code : Nat, code ≠ 404 →
        Flags2.classify_one (Flags2.FetchEvent.httpError code) =
          some Flags2.DownloadStatus.ERROR)
    ∧ (∀ msg : String,
        Flags2.classify_one (Flags2.FetchEvent.requestError msg) =
          some Flags2.DownloadStatus.ERROR)
    ∧ Flags2.classify_one Flags2.FetchEvent.success =
        some Flags2.DownloadStatus.OK := by
  refine ⟨?_, ?_, fun msg => rfl, rfl⟩
  · intro ev
    cases ev with
    | success => simp [Flags2.classify_one, Flags2.download_one]
    | httpError code =>
      by_cases h : code = 404
      · subst h
        simp [Flags2.classify_one, Flags2.download_one]
      · simp [Flags2.classify_one, Flags2.download_one, h]
    | requestError msg => simp [Flags2.classify_one, Flags2.download_one]
    | keyboardInterrupt => simp [Flags2.classify_one, Flags2.download_one]
  · intro code h
    simp [Flags2.classify_one, Flags2.download_one, h]

/-- Witness for C2 at the concrete non-404 code 500. -/
theorem C2_classifier_behaviour_witness :
    Flags2.classify_one (Flags2.FetchEvent.httpError 500) =
      some Flags2.DownloadStatus.ERROR :=
  C2_classifier_behaviour.2.1 500 (by decide)

/-- C3: the claim says the final tally is the same for every permutation
of the completion arrival order.  The thread-pool `download_many` violates
it: with the tallying statements outside the drain loop, the single
counted outcome is whatever the locals held after the last completion.
The same two-job multiset (one success, one HTTP-500 failure) tallies as
one `ERROR` in one arrival order and as one `OK` in the other. -/
theorem C3_threadpool_order_dependent :
    Flags2.download_many_threadpool
        [("AA", Flags2.FetchEvent.success), ("BB", Flags2.FetchEvent.httpError 500)]
      = Except.ok ⟨0, 0, 1⟩
    ∧ Flags2.download_many_threadpool
        [("BB", Flags2.FetchEvent.httpError 500), ("AA", Flags2.FetchEvent.success)]
      = Except.ok ⟨1, 0, 0⟩
    ∧ List.Perm
        [("AA", Flags2.FetchEvent.success), ("BB", Flags2.FetchEvent.httpError 500)]
        [("BB", Flags2.FetchEvent.httpError 500), ("AA", Flags2.FetchEvent.success)] :=
  ⟨rfl, rfl, List.Perm.swap _ _ _⟩

/-- C8: the claim says that on an interrupt during draining the counts
already accumulated are returned unchanged.  The sequential
`download_many` honours this (two successes drained before the interrupt
give total 2, and the jobs behind the interrupt are not consumed), but the
thread-pool version violates it: its only counter update runs after the
interrupted loop, so it returns a tally of one outcome taken from stale
locals rather than the accumulated counts. -/
theorem C8_interrupt_behaviour :
    Flags2.download_many_sequential
        [("AA", Flags2.FetchEvent.success), ("BB", Flags2.FetchEvent.success),
         ("CC", Flags2.FetchEvent.keyboardInterrupt),
         ("DD", Flags2.FetchEvent.httpError 500)]
      = ⟨2, 0, 0⟩
    ∧ Flags2.download_many_threadpool
        [("AA", Flags2.FetchEvent.success), ("BB", Flags2.FetchEvent.success),
         ("CC", Flags2.FetchEvent.keyboardInterrupt),
         ("DD", Flags2.FetchEvent.httpError 500)]
      = Except.ok ⟨1, 0, 0⟩ :=
  ⟨rfl, rfl⟩

/-- C10: on an empty job batch, the thread-pool `download_many` does not
return an empty tally; the drain loop never runs, so reading the
loop locals `error_msg` and `status` afterwards hits an unbound local
and the call fails. -/
theorem C10_empty_batch_unbound_local :
    Flags2.download_many_threadpool [] = Except.error Flags2.PyError.nameError :=
  rfl

/-- C4: the drain loop of `report` stops after observing exactly `W`
worker-done markers and, with no interruption, returns exactly the number
of non-marker results, in any relative interleaving of results and
markers produced by the protocol (where every result precedes the final
marker, so the stream ends with a marker).  The whole stream is consumed,
so exactly `W` markers were observed. -/
theorem C4_report_counts (W N : Nat) (s : List Primes.PrimeResult)
    (hW : Primes.countMarkers s = W)
    (hN : Primes.countResults s = N)
    (hlast : ∃ t m, s = t ++ [m] ∧ m.n = 0) :
    Primes.report W s = some (N, []) := by
  have h := reportLoop_drain W s 0 0 hlast (by omega)
  rw [Primes.report, h, Nat.zero_add, hN]

/-- Witness for C4: two workers, two results and two markers interleaved. -/
theorem C4_report_counts_witness :
    Primes.report 2
        [⟨7, true, 0⟩, ⟨0, false, 0⟩, ⟨9, false, 0⟩, ⟨0, false, 0⟩]
      = some (2, []) :=
  C4_report_counts 2 2 _ (by decide) (by decide)
    ⟨[⟨7, true, 0⟩, ⟨0, false, 0⟩, ⟨9, false, 0⟩], ⟨0, false, 0⟩, rfl, rfl⟩

/-- C5: `start_jobs` enqueues the whole batch before any sentinel and
exactly one sentinel per worker; consequently, when the batch contains no
sentinel-valued input, any complete drain of the queue by workers that
each stop at their first sentinel (their consumed stream is some
sentinel-free `body` followed by one `0`) assigns exactly one sentinel to
each worker, uses exactly `procs` workers, and processes each job exactly
once. -/
theorem C5_start_jobs_protocol (numbers : List Int) (procs : Nat)
    (h0 : (0 : Int) ∉ numbers) :
    Primes.start_jobs_queue numbers procs = numbers ++ List.replicate procs 0
    ∧ (Primes.start_jobs_queue numbers procs).count 0 = procs
    ∧ ∀ Ls : List (List Int),
        (∀ L ∈ Ls, ∃ body, (0 : Int) ∉ body ∧ L = body ++ [0]) →
        (Ls.map fun L => Multiset.ofList L).sum
          = Multiset.ofList (Primes.start_jobs_queue numbers procs) →
        (∀ L ∈ Ls, L.count 0 = 1)
        ∧ Ls.length = procs
        ∧ (Ls.map fun L => Multiset.ofList (L.filter fun x => x != 0)).sum
            = Multiset.ofList numbers := by
  have hq := start_jobs_queue_eq numbers procs
  refine ⟨hq, ?_, ?_⟩
  · rw [hq, List.count_append, List.count_eq_zero.mpr h0, List.count_replicate]
    simp
  · intro Ls hLs hsum
    obtain ⟨hsplit, hone, hzero⟩ := partition_bodies Ls hLs
    have hqm : Multiset.ofList (Primes.start_jobs_queue numbers procs)
        = Multiset.ofList numbers + Multiset.replicate procs 0 := by
      rw [hq]
      rw [← Multiset.coe_replicate]
      rfl
    rw [hsplit, hqm] at hsum
    have hcnt := congrArg (Multiset.count (0 : Int)) hsum
    rw [Multiset.count_add, Multiset.count_add, Multiset.count_replicate,
      Multiset.count_replicate, if_pos rfl, if_pos rfl, hzero] at hcnt
    have hnum0 : (Multiset.ofList numbers).count 0 = 0 := by
      simpa using List.count_eq_zero.mpr h0
    rw [hnum0] at hcnt
    have hlen : Ls.length = procs := by omega
    refine ⟨hone, hlen, ?_⟩
    rw [hlen] at hsum
    exact add_right_cancel hsum

/-- Witness for C5 on a concrete 2-job batch and 2 workers. -/
theorem C5_start_jobs_protocol_witness :
    Primes.start_jobs_queue [3, 5] 2 = [3, 5] ++ List.replicate 2 0 :=
  (C5_start_jobs_protocol [3, 5] 2 (by decide)).1

/-- C6: a worker dequeuing a sequence of job inputs ending in the first
sentinel invokes `check` and enqueues exactly one result per non-sentinel
input, and on the sentinel enqueues exactly one done marker and
terminates. -/
theorem C6_worker_loop (body rest : List Int) (h : (0 : Int) ∉ body) :
    Primes.worker (body ++ 0 :: rest)
      = body.map Primes.check ++ [Primes.doneMarker] :=
  worker_eq body rest h

/-- Witness for C6 on a concrete queue view. -/
theorem C6_worker_loop_witness :
    Primes.worker ([3, 4] ++ 0 :: [9])
      = [3, 4].map Primes.check ++ [Primes.doneMarker] :=
  C6_worker_loop [3, 4] [9] (by decide)

/-- C7 counterexample: the claim says a batch containing the sentinel
value 0 is detected and refused by the dispatcher.  In the code,
`start_jobs` performs no validation: the batch `[5, 0, 7]` is enqueued
verbatim (the embedded 0 included) before the per-worker sentinel, and a
worker draining that queue stops at the embedded 0 after processing only
the job 5, leaving 7 unprocessed. -/
theorem C7_no_rejection_counterexample :
    Primes.start_jobs_queue [5, 0, 7] 1 = [5, 0, 7, 0]
    ∧ Primes.worker [5, 0, 7, 0] = [Primes.check 5, Primes.doneMarker] :=
  ⟨rfl, rfl⟩

/-- C7 (amended): the dispatcher does not detect or refuse a job input
equal to the sentinel; `start_jobs` enqueues every batch verbatim ahead of
the per-worker sentinels, and a worker that dequeues the embedded
sentinel-valued input terminates early, emitting its done marker with the
jobs behind it unprocessed by that worker. -/
theorem C7_sentinel_not_refused (numbers : List Int) (procs : Nat)
    (h : (0 : Int) ∈ numbers) :
    Primes.start_jobs_queue numbers procs = numbers ++ List.replicate procs 0
    ∧ ∃ pre post, numbers = pre ++ 0 :: post ∧ (0 : Int) ∉ pre ∧
        Primes.worker (Primes.start_jobs_queue numbers procs)
          = pre.map Primes.check ++ [Primes.doneMarker] := by
  refine ⟨start_jobs_queue_eq numbers procs, ?_⟩
  obtain ⟨pre, post, hsplit, hpre⟩ :
      ∃ pre post, numbers = pre ++ 0 :: post ∧ (0 : Int) ∉ pre := by
    induction numbers with
    | nil => cases h
    | cons a tl ih =>
      by_cases ha : a = 0
      · exact ⟨[], tl, by simp [ha], by simp⟩
      · obtain ⟨pre, post, h1, h2⟩ := ih (by
          rcases List.mem_cons.mp h with h' | h'
          · exact absurd h'.symm ha
          · exact h')
        exact ⟨a :: pre, post, by rw [h1]; rfl, by
          intro hmem
          rcases List.mem_cons.mp hmem with h' | h'
          · exact ha h'.symm
          · exact h2 h'⟩
  refine ⟨pre, post, hsplit, hpre, ?_⟩
  rw [start_jobs_queue_eq, hsplit, List.append_assoc, List.cons_append]
  exact worker_eq pre _ hpre

/-- Witness for C7 (amended) on the concrete batch `[5, 0, 7]`. -/
theorem C7_sentinel_not_refused_witness :
    Primes.start_jobs_queue [5, 0, 7] 1 = [5, 0, 7] ++ List.replicate 1 0 :=
  (C7_sentinel_not_refused [5, 0, 7] 1 (by decide)).1

/-- C9: `is_prime n` returns `true` exactly when `n` is prime in the
claim's sense (`n ≥ 2` with no divisor `d`, `1 < d < n`); in particular it
returns `false` for every `n < 2` and for every even `n > 2`, and it
agrees with the expected boolean on every pair of `PRIME_FIXTURE`. -/
theorem C9_is_prime_correct :
    (∀ n : Int, Primes.is_prime n = true ↔ ClaimPrime n)
    ∧ (∀ n : Int, n < 2 → Primes.is_prime n = false)
    ∧ (∀ n : Int, 2 < n → n % 2 = 0 → Primes.is_prime n = false)
    ∧ (∀ pr ∈ Primes.PRIME_FIXTURE, Primes.is_prime pr.1 = pr.2) := by
  refine ⟨is_prime_iff_claimPrime, ?_, ?_, fixture_check⟩
  · intro n hn
    rw [Primes.is_prime, if_pos hn]
  · intro n h2 heven
    exact is_prime_false_of_divisor n 2 (by norm_num) h2 heven

/-- Witness for C9 at concrete inputs. -/
theorem C9_is_prime_correct_witness :
    Primes.is_prime (-7) = false ∧ Primes.is_prime 10 = false :=
  ⟨C9_is_prime_correct.2.1 (-7) (by decide),
   C9_is_prime_correct.2.2.1 10 (by decide) (by decide)⟩
